import Mathlib

/-!
Verification of the ChartBeacon backtest engine (`src/api/backtest.py`).

The engine replays a signal-annotated price series through a single-position
simulated portfolio (class `BacktestEngine`).  Prices and cash amounts are
modelled as exact rationals (the source uses floats), share quantities as
naturals (the source uses Python ints; the `int(x // y)` result is only used
under a `> 0` guard, where the two agree), trade timestamps as bar indices,
and the `BUY` / `SELL` / `HOLD` signal, action and reason strings literally.
Missing (NaN) indicator and summary values are modelled as `Option`.
-/

namespace ChartBeacon

/-- Mirrors the `Trade` dataclass: `timestamp, action, price, quantity, reason,
transaction_cost`.  Timestamps are bar indices of the input series. -/
structure Trade where
  timestamp : ℕ
  action : String
  price : ℚ
  quantity : ℕ
  reason : String
  transaction_cost : ℚ
deriving DecidableEq, Repr

/-- Mirrors `BacktestConfig`: `transaction_cost_rate`, `max_position_ratio`,
`stop_loss_ratio`, `risk_free_rate` (field names shortened). -/
structure BacktestConfig where
  costRate : ℚ
  maxPosition : ℚ
  stopLoss : ℚ
  riskFree : ℚ
deriving DecidableEq, Repr

/-- A row of the signal-annotated dataframe as consumed by
`BacktestEngine._execute_backtest`, which reads only `row["close"]` and
`row["signal"]` (source lines 716-718). -/
structure SignalRow where
  close : ℚ
  signal : String
deriving DecidableEq, Repr

/-- The mutable simulation state of `_execute_backtest`: `capital`, `position`,
`entry_price`, the trade ledger, the per-bar portfolio values and the running
`total_transaction_cost`. -/
structure EngineState where
  capital : ℚ
  position : ℕ
  entry_price : ℚ
  trades : List Trade
  portfolio_values : List ℚ
  total_transaction_cost : ℚ
deriving DecidableEq, Repr

/-- Initial state of a run (source lines 709-714). -/
def initState (initial_capital : ℚ) : EngineState :=
  ⟨initial_capital, 0, 0, [], [], 0⟩

/-- The trading part of one loop iteration of `_execute_backtest`
(source lines 716-776): stop-loss override, then the BUY branch, then the
SELL branch.  `i` is the bar index (the timestamp of an appended trade). -/
def applySignal (cfg : BacktestConfig) (i : ℕ) (row : SignalRow) (s : EngineState) :
    EngineState :=
  let current_price := row.close
  let hit : Bool := decide (0 < s.position) &&
    decide (current_price ≤ s.entry_price * (1 - cfg.stopLoss))
  let signal := if hit then "SELL" else row.signal
  let reason := if hit then "STOP_LOSS" else row.signal
  if signal = "BUY" ∧ s.position = 0 then
    let max_investment := s.capital * cfg.maxPosition
    let quantity := (max_investment / current_price).floor.toNat
    if 0 < quantity then
      let gross_cost := (quantity : ℚ) * current_price
      let transaction_cost := gross_cost * cfg.costRate
      let total_cost := gross_cost + transaction_cost
      if total_cost ≤ s.capital then
        { s with
          capital := s.capital - total_cost
          position := quantity
          entry_price := current_price
          total_transaction_cost := s.total_transaction_cost + transaction_cost
          trades := s.trades ++ [⟨i, "BUY", current_price, quantity, reason, transaction_cost⟩] }
      else s
    else s
  else if signal = "SELL" ∧ 0 < s.position then
    let gross_revenue := (s.position : ℚ) * current_price
    let transaction_cost := gross_revenue * cfg.costRate
    let net_revenue := gross_revenue - transaction_cost
    { s with
      capital := s.capital + net_revenue
      total_transaction_cost := s.total_transaction_cost + transaction_cost
      trades := s.trades ++ [⟨i, "SELL", current_price, s.position, reason, transaction_cost⟩]
      position := 0
      entry_price := 0 }
  else s

/-- One full loop iteration: trading, then the portfolio-value append
(source lines 778-780), which uses the updated capital and position. -/
def stepBar (cfg : BacktestConfig) (i : ℕ) (row : SignalRow) (s : EngineState) :
    EngineState :=
  let s1 := applySignal cfg i row s
  { s1 with portfolio_values :=
      s1.portfolio_values ++ [s1.capital + (s1.position : ℚ) * row.close] }

/-- The simulation loop `for timestamp, row in df.iterrows()` with `i` the
index of the first remaining bar. -/
def runBars (cfg : BacktestConfig) : List SignalRow → ℕ → EngineState → EngineState
  | [], _, s => s
  | row :: rest, i, s => runBars cfg rest (i + 1) (stepBar cfg i row s)

/-- The forced final liquidation (source lines 782-801).  The guard is
`position > 0`; `df["close"].iloc[-1]` is the last row's close (only reached
with a nonempty series, since an open position requires an executed BUY).
Note the source does not reset the `position` variable here; neither do we. -/
def finalLiquidate (cfg : BacktestConfig) (rows : List SignalRow) (s : EngineState) :
    EngineState :=
  if 0 < s.position then
    match rows.getLast? with
    | none => s
    | some lastRow =>
      let final_price := lastRow.close
      let gross_revenue := (s.position : ℚ) * final_price
      let transaction_cost := gross_revenue * cfg.costRate
      let net_revenue := gross_revenue - transaction_cost
      { s with
        capital := s.capital + net_revenue
        total_transaction_cost := s.total_transaction_cost + transaction_cost
        trades := s.trades ++
          [⟨rows.length - 1, "SELL", final_price, s.position, "FINAL_SELL", transaction_cost⟩] }
  else s

/-- State at the end of `_execute_backtest`'s simulation (loop plus forced
final liquidation). -/
def finalState (cfg : BacktestConfig) (rows : List SignalRow) (initial_capital : ℚ) :
    EngineState :=
  finalLiquidate cfg rows (runBars cfg rows 0 (initState initial_capital))

/-- Number of BUY trades in a ledger. -/
def buyCount (ts : List Trade) : ℕ :=
  (ts.filter fun t => decide (t.action = "BUY")).length

/-- Number of SELL trades in a ledger. -/
def sellCount (ts : List Trade) : ℕ :=
  (ts.filter fun t => decide (t.action = "SELL")).length

/-- Total number of shares bought over a ledger. -/
def boughtQty (ts : List Trade) : ℕ :=
  ((ts.filter fun t => decide (t.action = "BUY")).map Trade.quantity).sum

/-- Total number of shares sold over a ledger. -/
def soldQty (ts : List Trade) : ℕ :=
  ((ts.filter fun t => decide (t.action = "SELL")).map Trade.quantity).sum

/-- FIFO win/loss matching loop of `_calculate_win_loss_trades`
(source lines 846-869): `stack` is the `buy_stack`, `w`/`l` the counters. -/
def winLossGo : List Trade → List Trade → ℕ → ℕ → ℕ × ℕ
  | [], _, w, l => (w, l)
  | t :: rest, stack, w, l =>
    if t.action = "BUY" then
      winLossGo rest (stack ++ [t]) w l
    else if t.action = "SELL" then
      match stack with
      | [] => winLossGo rest [] w l
      | b :: stail =>
        let buy_cost := b.price * (b.quantity : ℚ) + b.transaction_cost
        let sell_revenue := t.price * (t.quantity : ℚ) - t.transaction_cost
        if buy_cost < sell_revenue then winLossGo rest stail (w + 1) l
        else winLossGo rest stail w (l + 1)
    else winLossGo rest stack w l

/-- `_calculate_win_loss_trades`. -/
def calculateWinLossTrades (trades : List Trade) : ℕ × ℕ :=
  winLossGo trades [] 0 0

/-- `win_rate = (winning / max(1, winning + losing)) * 100` (source line 813). -/
def winRate (w l : ℕ) : ℚ :=
  ((w : ℚ) / ((max 1 (w + l) : ℕ) : ℚ)) * 100

/-- Minimum of a list of rationals (`pandas .min()` over a nonempty column). -/
def listMin : List ℚ → ℚ
  | [] => 0
  | v :: rest => rest.foldl min v

/-- Drawdown column of `_calculate_max_drawdown`: running maximum `m`, each
value contributes `(value - cummax) / cummax`. -/
def drawdownsFrom : ℚ → List ℚ → List ℚ
  | _, [] => []
  | m, v :: rest =>
    let m2 := max m v
    ((v - m2) / m2) :: drawdownsFrom m2 rest

/-- `_calculate_max_drawdown` (source lines 871-882): 0 on an empty equity
curve, otherwise `min(drawdown) * 100`. -/
def calculateMaxDrawdown (portfolio_values : List ℚ) : ℚ :=
  match portfolio_values with
  | [] => 0
  | v :: rest => listMin (drawdownsFrom v (v :: rest)) * 100

/-- `pd.Series(...).pct_change().dropna()`: consecutive relative changes. -/
def pctChangeGo : ℚ → List ℚ → List ℚ
  | _, [] => []
  | prev, y :: rest => (y - prev) / prev :: pctChangeGo y rest

/-- Per-bar returns of an equity curve (first NaN dropped). -/
def pctChange : List ℚ → List ℚ
  | [] => []
  | x :: rest => pctChangeGo x rest

/-- Arithmetic mean of a list (`pandas .mean()`). -/
def listMean (xs : List ℚ) : ℚ := xs.sum / (xs.length : ℚ)

/-- Sample variance with denominator `n - 1` (`pandas .std()` squared). -/
def sampleVar (xs : List ℚ) : ℚ :=
  ((xs.map fun x => (x - listMean xs) ^ 2).sum) / ((xs.length : ℚ) - 1)

section
open Classical

/-- `_calculate_sharpe_ratio` (source lines 884-900): 0 for fewer than two
equity points, 0 when the standard deviation of the per-bar returns is zero,
otherwise mean excess return over std, annualized by `sqrt 252`. -/
noncomputable def calculateSharpe (riskFree : ℚ) (portfolio_values : List ℚ) : ℝ :=
  if portfolio_values.length < 2 then 0
  else
    let returns := pctChange portfolio_values
    let std : ℝ := Real.sqrt ((sampleVar returns : ℚ) : ℝ)
    if std = 0 then 0
    else
      let daily_risk_free_rate : ℚ := riskFree / 252
      (((listMean ((returns.map fun r => r - daily_risk_free_rate)) : ℚ) : ℝ) / std) *
        Real.sqrt 252

end

/-- `_calculate_buy_hold_return` (source lines 902-923): entry cost is taken
on the whole initial capital, shares are the floor of the remaining capital
over the first close, exit cost is taken on the final notional. -/
def calculateBuyHoldReturn (cfg : BacktestConfig) (closes : List ℚ)
    (initial_capital : ℚ) : ℚ :=
  match closes.head?, closes.getLast? with
  | some start_price, some end_price =>
    let transaction_cost := initial_capital * cfg.costRate
    let available_capital := initial_capital - transaction_cost
    let shares : ℤ := (available_capital / start_price).floor
    if shares ≤ 0 then 0
    else
      let final_value := (shares : ℚ) * end_price
      let final_transaction_cost := final_value * cfg.costRate
      let final_capital := final_value - final_transaction_cost
      ((final_capital - initial_capital) / initial_capital) * 100
  | _, _ => 0

/-- The computable part of `BacktestResult` (ticker and dates omitted; the
Sharpe ratio is `calculateSharpe cfg.riskFree result.portfolio_values`, kept
as a separate function because exact real square roots are not computable). -/
structure BacktestResult where
  initial_capital : ℚ
  final_capital : ℚ
  total_return_pct : ℚ
  buy_hold_return_pct : ℚ
  alpha : ℚ
  total_trades : ℕ
  winning_trades : ℕ
  losing_trades : ℕ
  win_rate : ℚ
  max_drawdown : ℚ
  total_transaction_cost : ℚ
  trades : List Trade
  portfolio_values : List ℚ
deriving DecidableEq, Repr

/-- `_execute_backtest` (source lines 705-844). -/
def executeBacktest (cfg : BacktestConfig) (rows : List SignalRow)
    (initial_capital : ℚ) : BacktestResult :=
  let s := finalState cfg rows initial_capital
  let final_capital := s.capital
  let total_return_pct := ((final_capital - initial_capital) / initial_capital) * 100
  let buy_hold_return_pct :=
    calculateBuyHoldReturn cfg (rows.map SignalRow.close) initial_capital
  let wl := calculateWinLossTrades s.trades
  { initial_capital := initial_capital
    final_capital := final_capital
    total_return_pct := total_return_pct
    buy_hold_return_pct := buy_hold_return_pct
    alpha := total_return_pct - buy_hold_return_pct
    total_trades := min (buyCount s.trades) (sellCount s.trades)
    winning_trades := wl.1
    losing_trades := wl.2
    win_rate := winRate wl.1 wl.2
    max_drawdown := calculateMaxDrawdown s.portfolio_values
    total_transaction_cost := s.total_transaction_cost
    trades := s.trades
    portfolio_values := s.portfolio_values }

/-- A candle row as checked by `_validate_data` (`open, high, low, close,
volume`; the Lean keyword `open` is spelled `openPrice`). -/
structure Candle where
  openPrice : ℚ
  high : ℚ
  low : ℚ
  close : ℚ
  volume : ℚ
deriving DecidableEq, Repr

/-- `_validate_data` (source lines 137-152): an empty frame and any
non-positive price in `open`/`high`/`low`/`close` raise a `ValueError`
(missing closes and short series only log warnings). -/
def validateData (candles : List Candle) (ticker : String) : Except String Unit :=
  if candles = [] then .error ("No candle data found for " ++ ticker)
  else if candles.any fun c => decide (c.openPrice ≤ 0) then
    .error "Invalid price data detected in open"
  else if candles.any fun c => decide (c.high ≤ 0) then
    .error "Invalid price data detected in high"
  else if candles.any fun c => decide (c.low ≤ 0) then
    .error "Invalid price data detected in low"
  else if candles.any fun c => decide (c.close ≤ 0) then
    .error "Invalid price data detected in close"
  else .ok ()

/-- A merged backtest row (`_merge_backtest_data`): candle fields plus the
left-joined indicator and summary fields, which may be missing (NaN),
modelled as `Option`.  The unused `roc` and count columns are omitted. -/
structure MergedRow where
  openPrice : ℚ
  high : ℚ
  low : ℚ
  close : ℚ
  volume : ℚ
  rsi14 : Option ℚ
  macd : Option ℚ
  macd_signal : Option ℚ
  stoch_k : Option ℚ
  cci14 : Option ℚ
  level : Option String
deriving DecidableEq, Repr

instance : Inhabited MergedRow :=
  ⟨⟨0, 0, 0, 0, 0, none, none, none, none, none, none⟩⟩

/-- Candle projection of a merged row (for validation). -/
def candleOf (r : MergedRow) : Candle :=
  ⟨r.openPrice, r.high, r.low, r.close, r.volume⟩

/-- `pandas rolling(window=k).mean()` over a NaN-free column: defined from
index `k-1` on, as the mean of the trailing `k` values. -/
def rollingMean (k : ℕ) (xs : List ℚ) : List (Option ℚ) :=
  (List.range xs.length).map fun i =>
    if k ≤ i + 1 then some (((xs.take (i + 1)).drop (i + 1 - k)).sum / (k : ℚ))
    else none

/-- `pandas rolling(window=k).mean()` over a column that may contain NaN:
the window must consist of `k` present values. -/
def rollingMeanO (k : ℕ) (xs : List (Option ℚ)) : List (Option ℚ) :=
  (List.range xs.length).map fun i =>
    if k ≤ i + 1 then
      let w := (xs.take (i + 1)).drop (i + 1 - k)
      if w.all Option.isSome then some ((w.filterMap id).sum / (k : ℚ)) else none
    else none

/-- `pandas .pct_change(n)` over a NaN-free column. -/
def pctChangeN (n : ℕ) (xs : List ℚ) : List (Option ℚ) :=
  (List.range xs.length).map fun i =>
    if n ≤ i ∧ 0 < n then some (xs.getD i 0 / xs.getD (i - n) 0 - 1) else none

/-- Row decision of `_generate_summary_signals` (source lines 310-326). -/
def summaryRowSignal (level : Option String) : String :=
  match level with
  | some lv =>
    if lv = "STRONG_BUY" ∨ lv = "BUY" then "BUY"
    else if lv = "STRONG_SELL" ∨ lv = "SELL" then "SELL"
    else "HOLD"
  | none => "HOLD"

/-- `_generate_summary_signals` applied to a merged series. -/
def generateSummarySignals (df : List MergedRow) : List SignalRow :=
  df.map fun r => ⟨r.close, summaryRowSignal r.level⟩

/-- Row decision of `_generate_rsi_signals` (source lines 328-344). -/
def rsiRowSignal (rsi : Option ℚ) : String :=
  match rsi with
  | some v => if v < 30 then "BUY" else if 70 < v then "SELL" else "HOLD"
  | none => "HOLD"

/-- `_generate_rsi_signals`. -/
def generateRsiSignals (df : List MergedRow) : List SignalRow :=
  df.map fun r => ⟨r.close, rsiRowSignal r.rsi14⟩

/-- Row decision of `_generate_macd_signals` (source lines 346-369), on the
`macd_diff` value and its one-bar shift. -/
def macdRowSignal (diff prev : Option ℚ) : String :=
  match diff, prev with
  | some d, some p =>
    if p ≤ 0 ∧ 0 < d then "BUY"
    else if 0 ≤ p ∧ d < 0 then "SELL"
    else "HOLD"
  | _, _ => "HOLD"

/-- `_generate_macd_signals`: `macd_diff = macd - macd_signal`,
`prev_macd_diff = macd_diff.shift(1)`. -/
def generateMacdSignals (df : List MergedRow) : List SignalRow :=
  let diffs : List (Option ℚ) :=
    df.map fun r => r.macd.bind fun m => r.macd_signal.map fun sg => m - sg
  List.zipWith (fun r dp => ⟨r.close, macdRowSignal dp.1 dp.2⟩)
    df (diffs.zip (none :: diffs))

/-- Row decision of `_generate_trend_filtered_signals` (source lines
371-419): SELL is suppressed in an uptrend. -/
def trendFilteredRowSignal (level : Option String) (close : ℚ)
    (ma50 ma200 trendStrength : Option ℚ) : String :=
  match level with
  | none => "HOLD"
  | some lv =>
    let base : Option String :=
      if lv = "STRONG_BUY" ∨ lv = "BUY" then some "BUY"
      else if lv = "STRONG_SELL" ∨ lv = "SELL" then some "SELL"
      else none
    match base with
    | none => "HOLD"
    | some b =>
      let is_uptrend : Bool :=
        match ma50, ma200 with
        | some m50, some m200 => decide (m50 < close) && decide (m200 < m50)
        | _, _ => false
      let strong_uptrend : Bool :=
        match trendStrength with
        | some t => decide ((10 : ℚ) / 100 < t)
        | none => false
      if b = "BUY" then "BUY"
      else if !(is_uptrend || strong_uptrend) then "SELL"
      else "HOLD"

/-- `_generate_trend_filtered_signals`: 50- and 200-bar moving averages of
the close and the 20-bar relative change. -/
def generateTrendFilteredSignals (df : List MergedRow) : List SignalRow :=
  let closes := df.map MergedRow.close
  let ma50 := rollingMean 50 closes
  let ma200 := rollingMean 200 closes
  let ts := pctChangeN 20 closes
  (List.range df.length).map fun i =>
    let r := df.getD i default
    ⟨r.close, trendFilteredRowSignal r.level r.close (ma50.getD i none)
      (ma200.getD i none) (ts.getD i none)⟩

/-- Row decision of `_generate_market_adaptive_signals` (source lines
421-483). -/
def marketAdaptiveRowSignal (level : Option String) (close : ℚ)
    (ma20 ma50 ma200 trendStrength : Option ℚ) : String :=
  let is_strong_bull : Bool :=
    match ma20, ma50, ma200, trendStrength with
    | some a, some b, some c, some t =>
      decide (a < close) && decide (b < a) && decide (c < b) &&
        decide ((15 : ℚ) / 100 < t)
    | _, _, _, _ => false
  let is_bear_market : Bool :=
    match ma50, ma200 with
    | some b, some c => decide (close < b) && decide (b < c)
    | _, _ => false
  match level with
  | none => "HOLD"
  | some lv =>
    let base : Option String :=
      if lv = "STRONG_BUY" ∨ lv = "BUY" then some "BUY"
      else if lv = "STRONG_SELL" ∨ lv = "SELL" then some "SELL"
      else none
    match base with
    | none => "HOLD"
    | some b =>
      if is_strong_bull then (if b = "BUY" then "BUY" else "HOLD")
      else if is_bear_market then b
      else if lv = "STRONG_BUY" ∨ lv = "STRONG_SELL" then b
      else "HOLD"

/-- `_generate_market_adaptive_signals`: MA20/50/200 of the close and the
trend strength `(close - ma50) / ma50` (the computed volatility column is
never used by this strategy). -/
def generateMarketAdaptiveSignals (df : List MergedRow) : List SignalRow :=
  let closes := df.map MergedRow.close
  let ma20 := rollingMean 20 closes
  let ma50 := rollingMean 50 closes
  let ma200 := rollingMean 200 closes
  (List.range df.length).map fun i =>
    let r := df.getD i default
    let ts : Option ℚ := (ma50.getD i none).map fun m => (r.close - m) / m
    ⟨r.close, marketAdaptiveRowSignal r.level r.close (ma20.getD i none)
      (ma50.getD i none) (ma200.getD i none) ts⟩

/-- Row decision of `_generate_low_frequency_signals` (source lines 485-528)
given the cooldown flag, the level, and the trend direction/flip flags. -/
def lowFreqRowSignal (cool : Bool) (level : Option String)
    (trendUp trendChange : Bool) : String :=
  if cool then "HOLD"
  else
    match level with
    | some lv =>
      if (lv = "STRONG_BUY" ∨ lv = "STRONG_SELL") ∧ trendChange = true then
        if lv = "STRONG_BUY" ∧ trendUp = true then "BUY"
        else if lv = "STRONG_SELL" ∧ trendUp = false then "SELL"
        else "HOLD"
      else "HOLD"
    | none => "HOLD"

/-- Stateful loop of `_generate_low_frequency_signals`: `lastIdx` is
`last_trade_idx` (`none` is the initial `-inf`, which never blocks), the
cooldown period is 15 bars. -/
def lowFreqGo : List (MergedRow × Bool × Bool) → ℕ → Option ℕ → List SignalRow
  | [], _, _ => []
  | (r, tU, tC) :: rest, i, lastIdx =>
    let cool : Bool :=
      match lastIdx with
      | some j => decide (i - j < 15)
      | none => false
    let sig := lowFreqRowSignal cool r.level tU tC
    let lastIdx2 := if sig = "BUY" ∨ sig = "SELL" then some i else lastIdx
    ⟨r.close, sig⟩ :: lowFreqGo rest (i + 1) lastIdx2

/-- `_generate_low_frequency_signals`: `trend_up = ma20 > ma50` (false on
missing values, as in pandas), `trend_change = trend_up != trend_up.shift(1)`
(true at the first row, since a boolean never equals the shifted-in NaN). -/
def generateLowFrequencySignals (df : List MergedRow) : List SignalRow :=
  let closes := df.map MergedRow.close
  let ma20 := rollingMean 20 closes
  let ma50 := rollingMean 50 closes
  let tUp : List Bool := (List.range df.length).map fun i =>
    match ma20.getD i none, ma50.getD i none with
    | some a, some b => decide (b < a)
    | _, _ => false
  let tChange : List Bool := (List.range df.length).map fun i =>
    if i = 0 then true else tUp.getD i false != tUp.getD (i - 1) false
  lowFreqGo (df.zip (tUp.zip tChange)) 0 none

/-- Row decision of `_generate_adx_filtered_signals` (source lines 530-574):
trade the level only when the ADX estimate exceeds 25. -/
def adxRowSignal (adx : ℚ) (level : Option String) : String :=
  if 25 < adx then
    match level with
    | some lv =>
      if lv = "STRONG_BUY" ∨ lv = "BUY" then "BUY"
      else if lv = "STRONG_SELL" ∨ lv = "SELL" then "SELL"
      else "HOLD"
    | none => "HOLD"
  else "HOLD"

/-- `_generate_adx_filtered_signals`: true range, its 14-bar mean, the 14-bar
mean absolute relative change, and the ad hoc ADX estimate
`price_change_mean / atr14 * close * 100` (`NaN` resolved to 0 by the
`row.get`/`isna` fallback). -/
def generateAdxFilteredSignals (df : List MergedRow) : List SignalRow :=
  let closes := df.map MergedRow.close
  let tr : List ℚ := (List.range df.length).map fun i =>
    let r := df.getD i default
    if i = 0 then r.high - r.low
    else
      max (r.high - r.low)
        (max |r.high - closes.getD (i - 1) 0| |r.low - closes.getD (i - 1) 0|)
  let atr14 := rollingMean 14 tr
  let priceChange : List (Option ℚ) := (List.range df.length).map fun i =>
    if i = 0 then none else some |closes.getD i 0 / closes.getD (i - 1) 0 - 1|
  let pcMean := rollingMeanO 14 priceChange
  (List.range df.length).map fun i =>
    let r := df.getD i default
    let adx : ℚ :=
      match pcMean.getD i none, atr14.getD i none with
      | some p, some a => p / a * r.close * 100
      | _, _ => 0
    ⟨r.close, adxRowSignal adx r.level⟩

/-- Row decision of `_generate_momentum_reversal_signals` (source lines
576-620): simultaneous extreme oversold / overbought readings. -/
def momentumRowSignal (rsi stoch cci : Option ℚ) : String :=
  let extreme_oversold : Bool :=
    match rsi, stoch, cci with
    | some r, some s, some c =>
      decide (r < 25) && decide (s < 20) && decide (c < -150)
    | _, _, _ => false
  let extreme_overbought : Bool :=
    match rsi, stoch, cci with
    | some r, some s, some c =>
      decide (75 < r) && decide (80 < s) && decide (150 < c)
    | _, _, _ => false
  if extreme_oversold then "BUY"
  else if extreme_overbought then "SELL"
  else "HOLD"

/-- `_generate_momentum_reversal_signals`. -/
def generateMomentumReversalSignals (df : List MergedRow) : List SignalRow :=
  df.map fun r => ⟨r.close, momentumRowSignal r.rsi14 r.stoch_k r.cci14⟩

/-- Row signal of `_generate_position_sizing_signals` (source lines 622-665).
The strategy also attaches a `position_size` column (scaled by the 20-bar
volatility), but the signal depends on the level alone and the execution
core reads only `close` and `signal`, so the size column is not carried. -/
def positionSizingRowSignal (level : Option String) : String :=
  match level with
  | some lv =>
    if lv = "STRONG_BUY" then "BUY"
    else if lv = "BUY" then "BUY"
    else if lv = "STRONG_SELL" then "SELL"
    else if lv = "SELL" then "SELL"
    else "HOLD"
  | none => "HOLD"

/-- `_generate_position_sizing_signals`, projected to `close` and `signal`. -/
def generatePositionSizingSignals (df : List MergedRow) : List SignalRow :=
  df.map fun r => ⟨r.close, positionSizingRowSignal r.level⟩

/-- Row decision of `_generate_buy_hold_first_signals` (source lines
667-703) given the held flag and the `below_ma200` flag. -/
def buyHoldFirstRowSignal (held : Bool) (level : Option String)
    (below : Bool) : String :=
  if held = false then
    match level with
    | some lv =>
      if lv = "STRONG_BUY" ∨ lv = "BUY" then "BUY" else "HOLD"
    | none => "HOLD"
  else
    match level with
    | some lv => if lv = "STRONG_SELL" ∧ below = true then "SELL" else "HOLD"
    | none => "HOLD"

/-- Stateful loop of `_generate_buy_hold_first_signals`: `position_held`
flips on BUY and SELL decisions. -/
def buyHoldFirstGo : List (MergedRow × Bool) → Bool → List SignalRow
  | [], _ => []
  | (r, below) :: rest, held =>
    let sig := buyHoldFirstRowSignal held r.level below
    let held2 := if sig = "BUY" then true else if sig = "SELL" then false else held
    ⟨r.close, sig⟩ :: buyHoldFirstGo rest held2

/-- `_generate_buy_hold_first_signals`: `below_ma200 = close < ma200 * 0.9`
(false on missing MA, as in pandas). -/
def generateBuyHoldFirstSignals (df : List MergedRow) : List SignalRow :=
  let closes := df.map MergedRow.close
  let ma200 := rollingMean 200 closes
  let below : List Bool := (List.range df.length).map fun i =>
    match ma200.getD i none with
    | some m => decide (closes.getD i 0 < m * ((9 : ℚ) / 10))
    | none => false
  buyHoldFirstGo (df.zip below) false

/-- The strategy dispatch of `run_signal_backtest` (source lines 107-128):
the named strategies in source order, else a `ValueError`. -/
def generateSignals (strategy : String) (df : List MergedRow) :
    Except String (List SignalRow) :=
  if strategy = "technical_summary" then .ok (generateSummarySignals df)
  else if strategy = "rsi" then .ok (generateRsiSignals df)
  else if strategy = "macd" then .ok (generateMacdSignals df)
  else if strategy = "trend_filtered" then .ok (generateTrendFilteredSignals df)
  else if strategy = "market_adaptive" then .ok (generateMarketAdaptiveSignals df)
  else if strategy = "buy_hold_first" then .ok (generateBuyHoldFirstSignals df)
  else if strategy = "low_frequency" then .ok (generateLowFrequencySignals df)
  else if strategy = "adx_filtered" then .ok (generateAdxFilteredSignals df)
  else if strategy = "momentum_reversal" then .ok (generateMomentumReversalSignals df)
  else if strategy = "position_sizing" then .ok (generatePositionSizingSignals df)
  else .error ("Unknown strategy: " ++ strategy)

/-- `run_signal_backtest` on an already-materialized merged series: validate
the candle data, generate the strategy's signals, then execute; a validation
or strategy error aborts before any trade is simulated. -/
def runSignalBacktest (strategy : String) (df : List MergedRow)
    (initial_capital : ℚ) (cfg : BacktestConfig) (ticker : String) :
    Except String BacktestResult :=
  match validateData (df.map candleOf) ticker with
  | .error e => .error e
  | .ok _ =>
    match generateSignals strategy df with
    | .error e => .error e
    | .ok rows => .ok (executeBacktest cfg rows initial_capital)

/-- Trade cash flow at cost rate `r`: a SELL adds the net revenue, a BUY
removes the total cost. -/
def cashflow (t : Trade) (r : ℚ) : ℚ :=
  if t.action = "SELL" then (t.quantity : ℚ) * t.price * (1 - r)
  else -((t.quantity : ℚ) * t.price * (1 + r))

theorem applySignal_shape (cfg : BacktestConfig) (i : ℕ) (row : SignalRow)
    (s : EngineState) :
    applySignal cfg i row s = s ∨
    (∃ (q : ℕ) (r : String), 0 < q ∧ s.position = 0 ∧
      (q : ℚ) * row.close + (q : ℚ) * row.close * cfg.costRate ≤ s.capital ∧
      applySignal cfg i row s =
        { s with
          capital := s.capital - ((q : ℚ) * row.close + (q : ℚ) * row.close * cfg.costRate)
          position := q
          entry_price := row.close
          total_transaction_cost := s.total_transaction_cost + (q : ℚ) * row.close * cfg.costRate
          trades := s.trades ++ [⟨i, "BUY", row.close, q, r, (q : ℚ) * row.close * cfg.costRate⟩] }) ∨
    (∃ (r : String), 0 < s.position ∧
      applySignal cfg i row s =
        { s with
          capital := s.capital + ((s.position : ℚ) * row.close - (s.position : ℚ) * row.close * cfg.costRate)
          position := 0
          entry_price := 0
          total_transaction_cost := s.total_transaction_cost + (s.position : ℚ) * row.close * cfg.costRate
          trades := s.trades ++ [⟨i, "SELL", row.close, s.position, r, (s.position : ℚ) * row.close * cfg.costRate⟩] }) := by
  unfold applySignal
  dsimp only
  split_ifs
  all_goals
    first
      | exact Or.inl rfl
      | (obtain ⟨-, hp⟩ := ‹_ ∧ s.position = 0›
         exact Or.inr (Or.inl ⟨_, _, by assumption, hp, by assumption, rfl⟩))
      | (obtain ⟨-, hp⟩ := ‹_ ∧ 0 < s.position›
         exact Or.inr (Or.inr ⟨_, hp, rfl⟩))

theorem buyCount_snoc (ts : List Trade) (t : Trade) :
    buyCount (ts ++ [t]) = buyCount ts + (if t.action = "BUY" then 1 else 0) := by
  simp only [buyCount, List.filter_append, List.length_append]
  split_ifs with h <;> simp [List.filter, h]

theorem sellCount_snoc (ts : List Trade) (t : Trade) :
    sellCount (ts ++ [t]) = sellCount ts + (if t.action = "SELL" then 1 else 0) := by
  simp only [sellCount, List.filter_append, List.length_append]
  split_ifs with h <;> simp [List.filter, h]

theorem boughtQty_snoc (ts : List Trade) (t : Trade) :
    boughtQty (ts ++ [t]) = boughtQty ts + (if t.action = "BUY" then t.quantity else 0) := by
  simp only [boughtQty, List.filter_append, List.map_append, List.sum_append]
  split_ifs with h <;> simp [List.filter, h]

theorem soldQty_snoc (ts : List Trade) (t : Trade) :
    soldQty (ts ++ [t]) = soldQty ts + (if t.action = "SELL" then t.quantity else 0) := by
  simp only [soldQty, List.filter_append, List.map_append, List.sum_append]
  split_ifs with h <;> simp [List.filter, h]

theorem prefix_of_snoc {α : Type} (p ts : List α) (t : α) (h : p <+: ts ++ [t]) :
    p <+: ts ∨ p = ts ++ [t] := by
  rcases h with ⟨u, hu⟩
  induction u using List.reverseRecOn with
  | nil => right; simpa using hu
  | append_singleton u' a ih =>
    left
    rw [← List.append_assoc] at hu
    have h2 := List.append_inj' hu rfl
    exact ⟨u', h2.1⟩

/-- Ledger bookkeeping invariant of the simulation loop: the bought quantity
splits into the sold quantity plus the open position, BUY/SELL counts differ
by exactly the open-position indicator, and no prefix of the ledger has more
SELLs than BUYs. -/
def LedgerInv (s : EngineState) : Prop :=
  boughtQty s.trades = soldQty s.trades + s.position ∧
  buyCount s.trades = sellCount s.trades + (if s.position = 0 then 0 else 1) ∧
  ∀ p, p <+: s.trades → sellCount p ≤ buyCount p

theorem ledgerInv_init (c : ℚ) : LedgerInv (initState c) := by
  refine ⟨by simp [initState, boughtQty, soldQty], by simp [initState, buyCount, sellCount], ?_⟩
  intro p hp
  simp [initState] at hp
  simp [hp, sellCount, buyCount]

theorem ledgerInv_applySignal (cfg : BacktestConfig) (i : ℕ) (row : SignalRow)
    (s : EngineState) (h : LedgerInv s) : LedgerInv (applySignal cfg i row s) := by
  obtain ⟨hq, hc, hpre⟩ := h
  rcases applySignal_shape cfg i row s with heq | ⟨q, r, hq0, hp0, _, heq⟩ | ⟨r, hp0, heq⟩
  · rw [heq]; exact ⟨hq, hc, hpre⟩
  · rw [heq]
    refine ⟨?_, ?_, ?_⟩
    · simp only [boughtQty_snoc, soldQty_snoc]
      simp only [hp0] at hq
      simp [hq]
    · simp only [buyCount_snoc, sellCount_snoc]
      simp only [hp0] at hc
      simp [hc, Nat.pos_iff_ne_zero.mp hq0]
    · intro p hp
      rcases prefix_of_snoc _ _ _ hp with hp | hp
      · exact hpre p hp
      · subst hp
        have hb := hpre s.trades List.prefix_rfl
        simp [buyCount_snoc, sellCount_snoc]
        omega
  · rw [heq]
    have hne : ¬ s.position = 0 := Nat.pos_iff_ne_zero.mp hp0
    refine ⟨?_, ?_, ?_⟩
    · simp only [boughtQty_snoc, soldQty_snoc]
      simp [hq]
    · simp only [buyCount_snoc, sellCount_snoc]
      simp only [hne, if_false] at hc
      simp [hc]
    · intro p hp
      rcases prefix_of_snoc _ _ _ hp with hp | hp
      · exact hpre p hp
      · subst hp
        simp only [hne, if_false] at hc
        simp [buyCount_snoc, sellCount_snoc, hc]

theorem ledgerInv_stepBar (cfg : BacktestConfig) (i : ℕ) (row : SignalRow)
    (s : EngineState) (h : LedgerInv s) : LedgerInv (stepBar cfg i row s) :=
  ledgerInv_applySignal cfg i row s h

theorem ledgerInv_runBars (cfg : BacktestConfig) (rows : List SignalRow) :
    ∀ (i : ℕ) (s : EngineState), LedgerInv s → LedgerInv (runBars cfg rows i s) := by
  induction rows with
  | nil => intro i s h; exact h
  | cons row rest ih =>
    intro i s h
    exact ih (i + 1) (stepBar cfg i row s) (ledgerInv_stepBar cfg i row s h)

theorem ledger_balanced_finalLiquidate (cfg : BacktestConfig) (rows : List SignalRow)
    (s : EngineState) (hne : rows ≠ []) (h : LedgerInv s) :
    buyCount (finalLiquidate cfg rows s).trades =
      sellCount (finalLiquidate cfg rows s).trades ∧
    boughtQty (finalLiquidate cfg rows s).trades =
      soldQty (finalLiquidate cfg rows s).trades ∧
    ∀ p, p <+: (finalLiquidate cfg rows s).trades → sellCount p ≤ buyCount p := by
  obtain ⟨hq, hc, hpre⟩ := h
  unfold finalLiquidate
  split_ifs with hpos
  · cases hlast : rows.getLast? with
    | none => exact absurd (List.getLast?_eq_none_iff.mp hlast) hne
    | some lastRow =>
      have hne0 : ¬ s.position = 0 := Nat.pos_iff_ne_zero.mp hpos
      simp only [hne0, if_false] at hc
      refine ⟨?_, ?_, ?_⟩
      · simp [buyCount_snoc, sellCount_snoc, hc]
      · simp [boughtQty_snoc, soldQty_snoc, hq]
      · intro p hp
        rcases prefix_of_snoc _ _ _ hp with hp | hp
        · exact hpre p hp
        · subst hp
          simp [buyCount_snoc, sellCount_snoc, hc]
  · have h0 : s.position = 0 := by omega
    rw [h0] at hc
    simp only [if_pos rfl, Nat.add_zero] at hc
    exact ⟨hc, by simpa [h0] using hq, hpre⟩

theorem mem_of_getLast?_eq (rows : List SignalRow) (lastRow : SignalRow)
    (hlast : rows.getLast? = some lastRow) : lastRow ∈ rows := by
  obtain ⟨h, hx⟩ := List.mem_getLast?_eq_getLast (Option.mem_def.mpr hlast)
  rw [hx]
  exact List.getLast_mem h

theorem applySignal_capital_nonneg (cfg : BacktestConfig) (i : ℕ) (row : SignalRow)
    (s : EngineState) (hr : cfg.costRate ≤ 1) (hc : 0 ≤ row.close)
    (h : 0 ≤ s.capital) : 0 ≤ (applySignal cfg i row s).capital := by
  rcases applySignal_shape cfg i row s with heq | ⟨q, r, hq0, hp0, hle, heq⟩ | ⟨r, hp0, heq⟩ <;>
    rw [heq]
  · exact h
  · exact sub_nonneg.mpr hle
  · have h1 : 0 ≤ (s.position : ℚ) * row.close * (1 - cfg.costRate) := by
      apply mul_nonneg (mul_nonneg (Nat.cast_nonneg _) hc)
      linarith
    have h2 : (s.position : ℚ) * row.close - (s.position : ℚ) * row.close * cfg.costRate =
        (s.position : ℚ) * row.close * (1 - cfg.costRate) := by ring
    simp only [EngineState.capital]
    rw [h2]
    linarith

theorem runBars_capital_nonneg (cfg : BacktestConfig) (hr : cfg.costRate ≤ 1) :
    ∀ (rows : List SignalRow) (i : ℕ) (s : EngineState), (∀ r ∈ rows, 0 ≤ r.close) →
      0 ≤ s.capital → 0 ≤ (runBars cfg rows i s).capital := by
  intro rows
  induction rows with
  | nil => intro i s _ h; exact h
  | cons row rest ih =>
    intro i s hp h
    exact ih (i + 1) (stepBar cfg i row s)
      (fun r hrm => hp r (List.mem_cons_of_mem _ hrm))
      (applySignal_capital_nonneg cfg i row s hr (hp row (List.mem_cons_self row rest)) h)

theorem finalLiquidate_capital_nonneg (cfg : BacktestConfig) (rows : List SignalRow)
    (s : EngineState) (hr : cfg.costRate ≤ 1) (hp : ∀ r ∈ rows, 0 ≤ r.close)
    (h : 0 ≤ s.capital) : 0 ≤ (finalLiquidate cfg rows s).capital := by
  unfold finalLiquidate
  split_ifs with hpos
  · cases hlast : rows.getLast? with
    | none => exact h
    | some lastRow =>
      have hcl : 0 ≤ lastRow.close := hp _ (mem_of_getLast?_eq rows lastRow hlast)
      have h1 : 0 ≤ (s.position : ℚ) * lastRow.close * (1 - cfg.costRate) := by
        apply mul_nonneg (mul_nonneg (Nat.cast_nonneg _) hcl)
        linarith
      have h2 : (s.position : ℚ) * lastRow.close -
          (s.position : ℚ) * lastRow.close * cfg.costRate =
          (s.position : ℚ) * lastRow.close * (1 - cfg.costRate) := by ring
      simp only [EngineState.capital]
      rw [h2]
      linarith
  · exact h

/-- A trade with its transaction-cost field erased: equality of ledgers under
`stripCost` is equality of timestamps, actions, prices and quantities. -/
def stripCost (t : Trade) : Trade :=
  { t with transaction_cost := 0 }

theorem cashflow_stripCost (t : Trade) (r : ℚ) :
    cashflow (stripCost t) r = cashflow t r := by
  simp [cashflow, stripCost]

theorem applySignal_capital_cashflow (cfg : BacktestConfig) (i : ℕ) (row : SignalRow)
    (s : EngineState) (C : ℚ)
    (h : s.capital = C + (s.trades.map fun t => cashflow t cfg.costRate).sum) :
    (applySignal cfg i row s).capital =
      C + ((applySignal cfg i row s).trades.map fun t => cashflow t cfg.costRate).sum := by
  rcases applySignal_shape cfg i row s with heq | ⟨q, r, hq0, hp0, hle, heq⟩ | ⟨r, hp0, heq⟩ <;>
    rw [heq]
  · exact h
  · simp only [EngineState.capital, EngineState.trades]
    rw [h]
    simp [cashflow]
    ring
  · simp only [EngineState.capital, EngineState.trades]
    rw [h]
    simp [cashflow]
    ring

theorem runBars_capital_cashflow (cfg : BacktestConfig) (C : ℚ) :
    ∀ (rows : List SignalRow) (i : ℕ) (s : EngineState),
      s.capital = C + (s.trades.map fun t => cashflow t cfg.costRate).sum →
      (runBars cfg rows i s).capital =
        C + ((runBars cfg rows i s).trades.map fun t => cashflow t cfg.costRate).sum := by
  intro rows
  induction rows with
  | nil => intro i s h; exact h
  | cons row rest ih =>
    intro i s h
    exact ih (i + 1) (stepBar cfg i row s) (applySignal_capital_cashflow cfg i row s C h)

theorem finalLiquidate_capital_cashflow (cfg : BacktestConfig) (rows : List SignalRow)
    (s : EngineState) (C : ℚ)
    (h : s.capital = C + (s.trades.map fun t => cashflow t cfg.costRate).sum) :
    (finalLiquidate cfg rows s).capital =
      C + ((finalLiquidate cfg rows s).trades.map fun t => cashflow t cfg.costRate).sum := by
  unfold finalLiquidate
  split_ifs with hpos
  · cases rows.getLast? with
    | none => exact h
    | some lastRow =>
      simp only [EngineState.capital, EngineState.trades]
      rw [h]
      simp [cashflow]
      ring
  · exact h

theorem exec_capital_cashflow (cfg : BacktestConfig) (rows : List SignalRow) (init : ℚ) :
    (finalState cfg rows init).capital =
      init + ((finalState cfg rows init).trades.map fun t => cashflow t cfg.costRate).sum := by
  unfold finalState
  exact finalLiquidate_capital_cashflow cfg rows _ init
    (runBars_capital_cashflow cfg init rows 0 (initState init) (by simp [initState]))

/-- All trade prices in the ledger are nonnegative. -/
def PricesOk (s : EngineState) : Prop := ∀ t ∈ s.trades, 0 ≤ t.price

theorem pricesOk_applySignal (cfg : BacktestConfig) (i : ℕ) (row : SignalRow)
    (s : EngineState) (hc : 0 ≤ row.close) (h : PricesOk s) :
    PricesOk (applySignal cfg i row s) := by
  rcases applySignal_shape cfg i row s with heq | ⟨q, r, hq0, hp0, hle, heq⟩ | ⟨r, hp0, heq⟩ <;>
    rw [heq]
  · exact h
  all_goals
    intro t ht
    rcases List.mem_append.mp ht with ht | ht
    · exact h t ht
    · simp only [List.mem_singleton] at ht
      subst ht
      exact hc

theorem pricesOk_runBars (cfg : BacktestConfig) :
    ∀ (rows : List SignalRow) (i : ℕ) (s : EngineState), (∀ r ∈ rows, 0 ≤ r.close) →
      PricesOk s → PricesOk (runBars cfg rows i s) := by
  intro rows
  induction rows with
  | nil => intro i s _ h; exact h
  | cons row rest ih =>
    intro i s hp h
    exact ih (i + 1) (stepBar cfg i row s)
      (fun r hrm => hp r (List.mem_cons_of_mem _ hrm))
      (pricesOk_applySignal cfg i row s (hp row (List.mem_cons_self row rest)) h)

theorem pricesOk_finalLiquidate (cfg : BacktestConfig) (rows : List SignalRow)
    (s : EngineState) (hp : ∀ r ∈ rows, 0 ≤ r.close) (h : PricesOk s) :
    PricesOk (finalLiquidate cfg rows s) := by
  unfold finalLiquidate
  split_ifs with hpos
  · cases hlast : rows.getLast? with
    | none => exact h
    | some lastRow =>
      intro t ht
      rcases List.mem_append.mp ht with ht | ht
      · exact h t ht
      · simp only [List.mem_singleton] at ht
        subst ht
        exact hp _ (mem_of_getLast?_eq rows lastRow hlast)
  · exact h

theorem pricesOk_finalState (cfg : BacktestConfig) (rows : List SignalRow) (init : ℚ)
    (hp : ∀ r ∈ rows, 0 ≤ r.close) : PricesOk (finalState cfg rows init) :=
  pricesOk_finalLiquidate cfg rows _ hp
    (pricesOk_runBars cfg rows 0 (initState init) hp (by intro t ht; simp [initState] at ht))

theorem cashflow_anti (t : Trade) (r1 r2 : ℚ) (hr : r1 ≤ r2) (hp : 0 ≤ t.price) :
    cashflow t r2 ≤ cashflow t r1 := by
  have hqp : 0 ≤ (t.quantity : ℚ) * t.price := mul_nonneg (Nat.cast_nonneg _) hp
  unfold cashflow
  split_ifs
  · exact mul_le_mul_of_nonneg_left (by linarith) hqp
  · have := mul_le_mul_of_nonneg_left (by linarith : 1 + r1 ≤ 1 + r2) hqp
    linarith

theorem exec_trades_def (cfg : BacktestConfig) (rows : List SignalRow) (init : ℚ) :
    (executeBacktest cfg rows init).trades = (finalState cfg rows init).trades := rfl

theorem exec_return_def (cfg : BacktestConfig) (rows : List SignalRow) (init : ℚ) :
    (executeBacktest cfg rows init).total_return_pct =
      (((finalState cfg rows init).capital - init) / init) * 100 := rfl

/-- C8: with the executed trade sequence held fixed (same timestamps,
actions, prices and quantities, stated as equality of the cost-stripped
ledgers) and containing at least one BUY, the reported total return is
non-increasing in the transaction cost rate: raising the rate from `r1` to
`r2` on an otherwise identical validated run cannot increase
`total_return_pct`. -/
theorem cost_rate_monotone (mp sl rf : ℚ) (rows : List SignalRow) (init r1 r2 : ℚ)
    (hinit : 0 < init) (hr : r1 ≤ r2) (hp : ∀ r ∈ rows, 0 < r.close)
    (hround : 1 ≤ buyCount (executeBacktest ⟨r1, mp, sl, rf⟩ rows init).trades)
    (heq : (executeBacktest ⟨r2, mp, sl, rf⟩ rows init).trades.map stripCost =
      (executeBacktest ⟨r1, mp, sl, rf⟩ rows init).trades.map stripCost) :
    (executeBacktest ⟨r2, mp, sl, rf⟩ rows init).total_return_pct ≤
      (executeBacktest ⟨r1, mp, sl, rf⟩ rows init).total_return_pct := by
  have hp' : ∀ r ∈ rows, 0 ≤ r.close := fun r h => le_of_lt (hp r h)
  set T1 := (finalState ⟨r1, mp, sl, rf⟩ rows init).trades with hT1
  set T2 := (finalState ⟨r2, mp, sl, rf⟩ rows init).trades with hT2
  have heq' : T2.map stripCost = T1.map stripCost := heq
  have hcap1 := exec_capital_cashflow ⟨r1, mp, sl, rf⟩ rows init
  have hcap2 := exec_capital_cashflow ⟨r2, mp, sl, rf⟩ rows init
  have hpr1 : ∀ t ∈ T1, 0 ≤ t.price := pricesOk_finalState ⟨r1, mp, sl, rf⟩ rows init hp'
  -- rewrite the r2-sum over T2 as a sum over T1
  have hmap2 : T2.map (fun t => cashflow t r2) = T1.map (fun t => cashflow t r2) := by
    have e2 : T2.map (fun t => cashflow t r2) =
        (T2.map stripCost).map (fun t => cashflow t r2) := by
      rw [List.map_map]
      exact List.map_congr_left fun t _ => (cashflow_stripCost t r2).symm
    have e1 : (T1.map stripCost).map (fun t => cashflow t r2) =
        T1.map (fun t => cashflow t r2) := by
      rw [List.map_map]
      exact List.map_congr_left fun t _ => cashflow_stripCost t r2
    rw [e2, heq', e1]
  have hsum : (T2.map fun t => cashflow t r2).sum ≤ (T1.map fun t => cashflow t r1).sum := by
    rw [hmap2]
    exact List.sum_le_sum fun t ht => cashflow_anti t r1 r2 hr (hpr1 t ht)
  have hcap : (finalState ⟨r2, mp, sl, rf⟩ rows init).capital ≤
      (finalState ⟨r1, mp, sl, rf⟩ rows init).capital := by
    rw [hcap1, hcap2]
    have : ((finalState ⟨r2, mp, sl, rf⟩ rows init).trades.map fun t =>
        cashflow t (BacktestConfig.mk r2 mp sl rf).costRate).sum ≤
        ((finalState ⟨r1, mp, sl, rf⟩ rows init).trades.map fun t =>
        cashflow t (BacktestConfig.mk r1 mp sl rf).costRate).sum := hsum
    linarith
  rw [exec_return_def, exec_return_def]
  have h2 : ((finalState ⟨r2, mp, sl, rf⟩ rows init).capital - init) / init ≤
      ((finalState ⟨r1, mp, sl, rf⟩ rows init).capital - init) / init := by
    apply div_le_div_of_nonneg_right ?_ (le_of_lt hinit)
    linarith
  nlinarith [h2]

/-- C1: while LONG (`position > 0`), a bar whose close is less than or equal
to `entry_price * (1 - stop_loss_ratio)` makes the execution core append a
SELL trade tagged `STOP_LOSS` at that bar for the full position and go FLAT,
whatever the strategy signal of the bar is; the boundary is the inclusive
`≤` of source line 721. -/
theorem stop_loss_fires_regardless_of_signal (cfg : BacktestConfig) (i : ℕ)
    (row : SignalRow) (s : EngineState) (hpos : 0 < s.position)
    (hle : row.close ≤ s.entry_price * (1 - cfg.stopLoss)) :
    (stepBar cfg i row s).trades =
      s.trades ++ [⟨i, "SELL", row.close, s.position, "STOP_LOSS",
        (s.position : ℚ) * row.close * cfg.costRate⟩] ∧
    (stepBar cfg i row s).position = 0 ∧
    (stepBar cfg i row s).capital =
      s.capital + ((s.position : ℚ) * row.close -
        (s.position : ℚ) * row.close * cfg.costRate) := by
  simp [stepBar, applySignal, hpos, hle, Nat.pos_iff_ne_zero]

/-- C1 witness: a LONG position of 10 shares entered at 100 with a 5% stop
hits the threshold exactly at close 95, even on a BUY signal. -/
theorem stop_loss_fires_regardless_of_signal_witness :
    (stepBar ⟨0, 1, 1/20, 0⟩ 3 ⟨95, "BUY"⟩ ⟨0, 10, 100, [], [], 0⟩).trades =
      [⟨3, "SELL", 95, 10, "STOP_LOSS", (10 : ℚ) * 95 * 0⟩] ∧
    (stepBar ⟨0, 1, 1/20, 0⟩ 3 ⟨95, "BUY"⟩ ⟨0, 10, 100, [], [], 0⟩).position = 0 ∧
    (stepBar ⟨0, 1, 1/20, 0⟩ 3 ⟨95, "BUY"⟩ ⟨0, 10, 100, [], [], 0⟩).capital =
      0 + ((10 : ℚ) * 95 - (10 : ℚ) * 95 * 0) :=
  stop_loss_fires_regardless_of_signal ⟨0, 1, 1/20, 0⟩ 3 ⟨95, "BUY"⟩
    ⟨0, 10, 100, [], [], 0⟩ (by norm_num) (by norm_num)

unseal Rat.add Rat.mul Rat.sub Rat.inv Rat.ofScientific in
/-- C2: on the 3-bar series with closes 100, 95, 80, signals BUY, HOLD,
HOLD, `stop_loss_ratio = 0.05`, zero transaction cost, full position ratio
and initial capital 10000, the run buys 100 shares at 100 on the first bar,
the stop-loss fires at the inclusive boundary 95 on the second bar selling
the 100 shares, and the run ends with final capital exactly 9500 and exactly
those two trades. -/
theorem stop_loss_boundary_scenario :
    (executeBacktest ⟨0, 1, 1/20, 3/100⟩
        [⟨100, "BUY"⟩, ⟨95, "HOLD"⟩, ⟨80, "HOLD"⟩] 10000).final_capital = 9500 ∧
    (executeBacktest ⟨0, 1, 1/20, 3/100⟩
        [⟨100, "BUY"⟩, ⟨95, "HOLD"⟩, ⟨80, "HOLD"⟩] 10000).trades =
      [⟨0, "BUY", 100, 100, "BUY", 0⟩, ⟨1, "SELL", 95, 100, "STOP_LOSS", 0⟩] := by
  decide

/-- C3: on a BUY signal while FLAT the core computes
`quantity = floor(cash * max_position_ratio / price)`; when `quantity ≥ 1`
and the total cost `quantity*price*(1+rate)` fits in cash it deducts the
total cost, opens the position at `entry_price = price` and appends a BUY
trade; otherwise cash, position and entry price are unchanged and no trade
is appended (and no error is possible: the step is a total function). -/
theorem buy_from_flat_spec (cfg : BacktestConfig) (i : ℕ) (row : SignalRow)
    (s : EngineState) (hflat : s.position = 0) (hsig : row.signal = "BUY") :
    ((1 ≤ (s.capital * cfg.maxPosition / row.close).floor.toNat ∧
        ((s.capital * cfg.maxPosition / row.close).floor.toNat : ℚ) * row.close +
          ((s.capital * cfg.maxPosition / row.close).floor.toNat : ℚ) * row.close * cfg.costRate
            ≤ s.capital) →
      (stepBar cfg i row s).capital =
          s.capital - (((s.capital * cfg.maxPosition / row.close).floor.toNat : ℚ) * row.close +
            ((s.capital * cfg.maxPosition / row.close).floor.toNat : ℚ) * row.close * cfg.costRate) ∧
        (stepBar cfg i row s).position = (s.capital * cfg.maxPosition / row.close).floor.toNat ∧
        (stepBar cfg i row s).entry_price = row.close ∧
        (stepBar cfg i row s).trades = s.trades ++
          [⟨i, "BUY", row.close, (s.capital * cfg.maxPosition / row.close).floor.toNat, "BUY",
            ((s.capital * cfg.maxPosition / row.close).floor.toNat : ℚ) * row.close * cfg.costRate⟩]) ∧
    (¬ (1 ≤ (s.capital * cfg.maxPosition / row.close).floor.toNat ∧
        ((s.capital * cfg.maxPosition / row.close).floor.toNat : ℚ) * row.close +
          ((s.capital * cfg.maxPosition / row.close).floor.toNat : ℚ) * row.close * cfg.costRate
            ≤ s.capital) →
      (stepBar cfg i row s).capital = s.capital ∧
        (stepBar cfg i row s).position = s.position ∧
        (stepBar cfg i row s).entry_price = s.entry_price ∧
        (stepBar cfg i row s).trades = s.trades) := by
  constructor
  · rintro ⟨hq, hc⟩
    have h0 : 0 < (s.capital * cfg.maxPosition / row.close).floor := by omega
    simp [stepBar, applySignal, hflat, hsig, h0, hc]
  · intro h
    by_cases hq : 0 < (s.capital * cfg.maxPosition / row.close).floor.toNat
    · have hc : ¬ (((s.capital * cfg.maxPosition / row.close).floor.toNat : ℚ) * row.close +
          ((s.capital * cfg.maxPosition / row.close).floor.toNat : ℚ) * row.close * cfg.costRate
            ≤ s.capital) := fun hc => h ⟨hq, hc⟩
      have h0 : 0 < (s.capital * cfg.maxPosition / row.close).floor := by omega
      simp [stepBar, applySignal, hflat, hsig, h0, hc]
    · have h0 : ¬ 0 < (s.capital * cfg.maxPosition / row.close).floor := by omega
      simp [stepBar, applySignal, hflat, hsig, h0]

unseal Rat.add Rat.mul Rat.sub Rat.inv Rat.ofScientific in
/-- C3 witness: with cash 1000, full position ratio, zero cost and price
400, the affordable quantity is 2 and the BUY executes as specified. -/
theorem buy_from_flat_spec_witness :
    (stepBar ⟨0, 1, 1/20, 0⟩ 0 ⟨400, "BUY"⟩ (initState 1000)).capital =
        (1000 : ℚ) - (((1000 * 1 / (400 : ℚ)).floor.toNat : ℚ) * 400 +
          ((1000 * 1 / (400 : ℚ)).floor.toNat : ℚ) * 400 * 0) ∧
      (stepBar ⟨0, 1, 1/20, 0⟩ 0 ⟨400, "BUY"⟩ (initState 1000)).position =
        ((1000 : ℚ) * 1 / 400).floor.toNat ∧
      (stepBar ⟨0, 1, 1/20, 0⟩ 0 ⟨400, "BUY"⟩ (initState 1000)).entry_price = 400 ∧
      (stepBar ⟨0, 1, 1/20, 0⟩ 0 ⟨400, "BUY"⟩ (initState 1000)).trades =
        [] ++ [⟨0, "BUY", 400, ((1000 : ℚ) * 1 / 400).floor.toNat, "BUY",
          (((1000 : ℚ) * 1 / 400).floor.toNat : ℚ) * 400 * 0⟩] :=
  (buy_from_flat_spec ⟨0, 1, 1/20, 0⟩ 0 ⟨400, "BUY"⟩ (initState 1000) rfl rfl).1
    (by constructor <;> decide)

/-- C4: on a validated nonempty series every run ends FLAT at the ledger
level: the reported `total_trades` is `min(#BUY, #SELL)` by construction,
the BUY and SELL counts are equal, the bought and sold share totals are
equal (all purchased shares are liquidated), and no ledger prefix has more
SELLs than BUYs, so every BUY is matched by a later SELL. -/
theorem run_ends_flat_and_matched (cfg : BacktestConfig) (rows : List SignalRow)
    (init : ℚ) (hne : rows ≠ []) (hp : ∀ r ∈ rows, 0 < r.close) :
    (executeBacktest cfg rows init).total_trades =
      min (buyCount (executeBacktest cfg rows init).trades)
        (sellCount (executeBacktest cfg rows init).trades) ∧
    buyCount (executeBacktest cfg rows init).trades =
      sellCount (executeBacktest cfg rows init).trades ∧
    boughtQty (executeBacktest cfg rows init).trades =
      soldQty (executeBacktest cfg rows init).trades ∧
    ∀ p, p <+: (executeBacktest cfg rows init).trades →
      sellCount p ≤ buyCount p := by
  have hinv := ledgerInv_runBars cfg rows 0 (initState init) (ledgerInv_init init)
  have hbal := ledger_balanced_finalLiquidate cfg rows
    (runBars cfg rows 0 (initState init)) hne hinv
  exact ⟨rfl, hbal⟩

unseal Rat.add Rat.mul Rat.sub Rat.inv Rat.ofScientific in
/-- C4 witness: a concrete two-bar validated run with a trailing open
position (BUY at 100, forced `FINAL_SELL` at 120) is balanced. -/
theorem run_ends_flat_and_matched_witness :
    buyCount (executeBacktest ⟨0, 1, 1/20, 0⟩
        [⟨100, "BUY"⟩, ⟨120, "HOLD"⟩] 10000).trades =
      sellCount (executeBacktest ⟨0, 1, 1/20, 0⟩
        [⟨100, "BUY"⟩, ⟨120, "HOLD"⟩] 10000).trades ∧
    boughtQty (executeBacktest ⟨0, 1, 1/20, 0⟩
        [⟨100, "BUY"⟩, ⟨120, "HOLD"⟩] 10000).trades =
      soldQty (executeBacktest ⟨0, 1, 1/20, 0⟩
        [⟨100, "BUY"⟩, ⟨120, "HOLD"⟩] 10000).trades :=
  ⟨(run_ends_flat_and_matched ⟨0, 1, 1/20, 0⟩ [⟨100, "BUY"⟩, ⟨120, "HOLD"⟩] 10000
      (by decide) (by decide)).2.1,
   (run_ends_flat_and_matched ⟨0, 1, 1/20, 0⟩ [⟨100, "BUY"⟩, ⟨120, "HOLD"⟩] 10000
      (by decide) (by decide)).2.2.1⟩

unseal Rat.add Rat.mul Rat.sub Rat.inv Rat.ofScientific in
/-- C5 counterexample: with a transaction cost rate above 1 (the config type
only demands a nonnegative rate), nonnegative initial capital and strictly
positive prices, an unguarded SELL books a negative net revenue and drives
the cash below zero, so the claim as stated is false. -/
theorem cash_negative_counterexample :
    (0 : ℚ) ≤ 10000 ∧
    (∀ r ∈ [(⟨100, "BUY"⟩ : SignalRow), ⟨1000000, "SELL"⟩], 0 < r.close) ∧
    (executeBacktest ⟨2, 1/100, 1/20, 0⟩
      [⟨100, "BUY"⟩, ⟨1000000, "SELL"⟩] 10000).final_capital < 0 := by
  refine ⟨by norm_num, by decide, by decide⟩

/-- C5 (amended with `transaction_cost_rate ≤ 1`, which the counterexample
shows is needed): with nonnegative initial capital, positive prices and a
cost rate at most 1, the cash is nonnegative after every bar prefix of the
simulation and after the forced final liquidation: a BUY only executes when
cash covers the gross cost plus transaction cost, and a SELL then only adds
a nonnegative net revenue. -/
theorem cash_never_negative_of_rate_le_one (cfg : BacktestConfig)
    (rows : List SignalRow) (init : ℚ) (h0 : 0 ≤ init) (hr : cfg.costRate ≤ 1)
    (hp : ∀ r ∈ rows, 0 < r.close) :
    (∀ n, 0 ≤ (runBars cfg (rows.take n) 0 (initState init)).capital) ∧
    0 ≤ (executeBacktest cfg rows init).final_capital := by
  have hp' : ∀ r ∈ rows, 0 ≤ r.close := fun r h => le_of_lt (hp r h)
  constructor
  · intro n
    exact runBars_capital_nonneg cfg hr (rows.take n) 0 (initState init)
      (fun r hrm => hp' r (List.take_subset n rows hrm)) h0
  · exact finalLiquidate_capital_nonneg cfg rows _ hr hp'
      (runBars_capital_nonneg cfg hr rows 0 (initState init) hp' h0)

unseal Rat.add Rat.mul Rat.sub Rat.inv Rat.ofScientific in
/-- C5 witness: the amended statement at a concrete run with a 1% cost
rate, evaluated at the two-bar prefix and at the end of the run. -/
theorem cash_never_negative_of_rate_le_one_witness :
    0 ≤ (runBars ⟨1/100, 19/20, 1/20, 0⟩
        ([⟨100, "BUY"⟩, ⟨50, "SELL"⟩].take 2) 0 (initState 10000)).capital ∧
    0 ≤ (executeBacktest ⟨1/100, 19/20, 1/20, 0⟩
        [⟨100, "BUY"⟩, ⟨50, "SELL"⟩] 10000).final_capital :=
  ⟨(cash_never_negative_of_rate_le_one ⟨1/100, 19/20, 1/20, 0⟩
      [⟨100, "BUY"⟩, ⟨50, "SELL"⟩] 10000 (by norm_num) (by norm_num) (by decide)).1 2,
   (cash_never_negative_of_rate_le_one ⟨1/100, 19/20, 1/20, 0⟩
      [⟨100, "BUY"⟩, ⟨50, "SELL"⟩] 10000 (by norm_num) (by norm_num) (by decide)).2⟩

/-- The strategy names accepted by the `run_signal_backtest` dispatch. -/
def strategyNames : List String :=
  ["technical_summary", "rsi", "macd", "trend_filtered", "market_adaptive",
   "buy_hold_first", "low_frequency", "adx_filtered", "momentum_reversal",
   "position_sizing"]

theorem generateSignals_unknown (strategy : String) (df : List MergedRow)
    (hbad : ∀ nm ∈ strategyNames, strategy ≠ nm) :
    generateSignals strategy df = .error ("Unknown strategy: " ++ strategy) := by
  unfold generateSignals
  split_ifs with h1 h2 h3 h4 h5 h6 h7 h8 h9 h10
  · exact absurd h1 (hbad _ (by simp [strategyNames]))
  · exact absurd h2 (hbad _ (by simp [strategyNames]))
  · exact absurd h3 (hbad _ (by simp [strategyNames]))
  · exact absurd h4 (hbad _ (by simp [strategyNames]))
  · exact absurd h5 (hbad _ (by simp [strategyNames]))
  · exact absurd h6 (hbad _ (by simp [strategyNames]))
  · exact absurd h7 (hbad _ (by simp [strategyNames]))
  · exact absurd h8 (hbad _ (by simp [strategyNames]))
  · exact absurd h9 (hbad _ (by simp [strategyNames]))
  · exact absurd h10 (hbad _ (by simp [strategyNames]))
  · rfl

/-- C6: empty price data, any non-positive open/high/low/close price, and an
unknown strategy name abort the run with an error before any simulation (no
result is produced), while a missing level or indicator value in a row makes
every strategy's per-row decision `HOLD` rather than an error. -/
theorem fatal_validation_and_hold_fallback :
    (∀ tk, validateData [] tk = .error ("No candle data found for " ++ tk)) ∧
    (∀ (candles : List Candle) (tk : String),
      (∃ c ∈ candles, c.openPrice ≤ 0 ∨ c.high ≤ 0 ∨ c.low ≤ 0 ∨ c.close ≤ 0) →
      ∃ e, validateData candles tk = .error e) ∧
    (∀ (strategy : String) (df : List MergedRow) (init : ℚ)
        (cfg : BacktestConfig) (tk : String),
      (∀ nm ∈ strategyNames, strategy ≠ nm) →
      ∃ e, runSignalBacktest strategy df init cfg tk = .error e) ∧
    summaryRowSignal none = "HOLD" ∧
    rsiRowSignal none = "HOLD" ∧
    (∀ p, macdRowSignal none p = "HOLD") ∧
    (∀ d, macdRowSignal d none = "HOLD") ∧
    (∀ (close : ℚ) (m50 m200 ts : Option ℚ),
      trendFilteredRowSignal none close m50 m200 ts = "HOLD") ∧
    (∀ (close : ℚ) (a b c t : Option ℚ),
      marketAdaptiveRowSignal none close a b c t = "HOLD") ∧
    (∀ (cool tU tC : Bool), lowFreqRowSignal cool none tU tC = "HOLD") ∧
    (∀ adx : ℚ, adxRowSignal adx none = "HOLD") ∧
    (∀ (st cc : Option ℚ), momentumRowSignal none st cc = "HOLD") ∧
    (∀ (rs cc : Option ℚ), momentumRowSignal rs none cc = "HOLD") ∧
    (∀ (rs st : Option ℚ), momentumRowSignal rs st none = "HOLD") ∧
    positionSizingRowSignal none = "HOLD" ∧
    (∀ (held below : Bool), buyHoldFirstRowSignal held none below = "HOLD") := by
  refine ⟨fun tk => rfl, ?_, ?_, rfl, rfl, ?_, ?_, fun _ _ _ _ => rfl, fun _ _ _ _ _ => rfl,
    ?_, ?_, ?_, ?_, ?_, rfl, ?_⟩
  · intro candles tk hex
    unfold validateData
    split_ifs with h0 h1 h2 h3 h4
    · exact ⟨_, rfl⟩
    · exact ⟨_, rfl⟩
    · exact ⟨_, rfl⟩
    · exact ⟨_, rfl⟩
    · exact ⟨_, rfl⟩
    · exfalso
      obtain ⟨c, hc, hbad⟩ := hex
      rcases hbad with hb | hb | hb | hb
      · exact h1 (List.any_eq_true.mpr ⟨c, hc, by simpa using hb⟩)
      · exact h2 (List.any_eq_true.mpr ⟨c, hc, by simpa using hb⟩)
      · exact h3 (List.any_eq_true.mpr ⟨c, hc, by simpa using hb⟩)
      · exact h4 (List.any_eq_true.mpr ⟨c, hc, by simpa using hb⟩)
  · intro strategy df init cfg tk hbad
    unfold runSignalBacktest
    cases validateData (df.map candleOf) tk with
    | error e => exact ⟨e, rfl⟩
    | ok u =>
      rw [generateSignals_unknown strategy df hbad]
      exact ⟨_, rfl⟩
  · intro p; cases p <;> rfl
  · intro d; cases d <;> rfl
  · intro cool tU tC; cases cool <;> rfl
  · intro adx; unfold adxRowSignal; split_ifs <;> rfl
  · intro st cc; cases st <;> cases cc <;> rfl
  · intro rs cc; cases rs <;> cases cc <;> rfl
  · intro rs st; cases rs <;> cases st <;> rfl
  · intro held below; cases held <;> rfl

unseal Rat.add Rat.mul Rat.sub Rat.inv Rat.ofScientific in
/-- C6 witness: the empty-data error, a zero `open` price error, an unknown
strategy error on otherwise valid data, and the missing-level HOLD fallback,
at concrete inputs. -/
theorem fatal_validation_and_hold_fallback_witness :
    validateData [] "AAPL" = .error "No candle data found for AAPL" ∧
    (∃ e, validateData [⟨0, 1, 1, 1, 1⟩] "AAPL" = .error e) ∧
    (∃ e, runSignalBacktest "bogus"
      [⟨1, 1, 1, 1, 1, none, none, none, none, none, none⟩] 1000
      ⟨0, 1, 1/20, 0⟩ "AAPL" = .error e) ∧
    summaryRowSignal none = "HOLD" :=
  ⟨fatal_validation_and_hold_fallback.1 "AAPL",
   fatal_validation_and_hold_fallback.2.1 [⟨0, 1, 1, 1, 1⟩] "AAPL"
     ⟨⟨0, 1, 1, 1, 1⟩, by decide, Or.inl (by norm_num)⟩,
   fatal_validation_and_hold_fallback.2.2.1 "bogus"
     [⟨1, 1, 1, 1, 1, none, none, none, none, none, none⟩] 1000
     ⟨0, 1, 1/20, 0⟩ "AAPL" (by decide),
   fatal_validation_and_hold_fallback.2.2.2.1⟩

unseal Rat.add Rat.mul Rat.sub Rat.inv Rat.ofScientific in
/-- C7: the buy-and-hold baseline with initial capital 1000, first close
100, last close 150 and cost rate 0.001 deducts the entry cost (1) from the
initial capital, buys `floor(999/100) = 9` shares, values them at the last
close (1350), deducts the exit cost (1.35) and reports 34.865%; and in
general the buy-and-hold return is 0 whenever no whole share is affordable. -/
theorem buy_hold_scenario_and_zero_when_unaffordable :
    calculateBuyHoldReturn ⟨1/1000, 19/20, 1/20, 3/100⟩ [100, 150] 1000 =
      6973/200 ∧
    ∀ (cfg : BacktestConfig) (c : ℚ) (rest : List ℚ) (init : ℚ),
      ((init - init * cfg.costRate) / c).floor ≤ 0 →
      calculateBuyHoldReturn cfg (c :: rest) init = 0 := by
  refine ⟨by decide, ?_⟩
  intro cfg c rest init hsh
  obtain ⟨e, he⟩ : ∃ e, (c :: rest).getLast? = some e := by
    cases hrl : (c :: rest).getLast? with
    | none => exact absurd (List.getLast?_eq_none_iff.mp hrl) (by simp)
    | some e => exact ⟨e, rfl⟩
  unfold calculateBuyHoldReturn
  rw [List.head?_cons, he]
  simp only [hsh, if_pos]

unseal Rat.add Rat.mul Rat.sub Rat.inv Rat.ofScientific in
/-- C7 witness: 34.865 = 6973/200 is the scenario value, and with capital 50
and first close 100 no share is affordable so the return is 0. -/
theorem buy_hold_scenario_and_zero_when_unaffordable_witness :
    calculateBuyHoldReturn ⟨1/1000, 19/20, 1/20, 3/100⟩ [100, 150] 1000 =
      6973/200 ∧
    calculateBuyHoldReturn ⟨0, 19/20, 1/20, 0⟩ [100] 50 = 0 :=
  ⟨buy_hold_scenario_and_zero_when_unaffordable.1,
   buy_hold_scenario_and_zero_when_unaffordable.2 ⟨0, 19/20, 1/20, 0⟩ 100 [] 50
     (by decide)⟩

/-- C9: the arithmetic degeneracies resolve to 0 and cannot raise (all
metric functions are total): the Sharpe ratio is 0 for an equity curve with
fewer than two points and whenever the per-bar returns have zero sample
variance (zero standard deviation), the max drawdown of an empty equity
curve is 0, and the win rate is 0 through the `max 1` denominator whenever
the FIFO matching yields no win/loss pairs; the engine's reported
`win_rate` and `max_drawdown` are exactly these functions of its ledger and
equity curve. -/
theorem degeneracies_resolve_to_zero :
    (∀ (rf : ℚ) (pv : List ℚ), pv.length < 2 → calculateSharpe rf pv = 0) ∧
    (∀ (rf : ℚ) (pv : List ℚ), sampleVar (pctChange pv) = 0 →
      calculateSharpe rf pv = 0) ∧
    calculateMaxDrawdown [] = 0 ∧
    (∀ ts : List Trade, calculateWinLossTrades ts = (0, 0) →
      winRate (calculateWinLossTrades ts).1 (calculateWinLossTrades ts).2 = 0) ∧
    (∀ (cfg : BacktestConfig) (rows : List SignalRow) (init : ℚ),
      (executeBacktest cfg rows init).win_rate =
        winRate (calculateWinLossTrades (executeBacktest cfg rows init).trades).1
          (calculateWinLossTrades (executeBacktest cfg rows init).trades).2 ∧
      (executeBacktest cfg rows init).max_drawdown =
        calculateMaxDrawdown (executeBacktest cfg rows init).portfolio_values) := by
  refine ⟨?_, ?_, rfl, ?_, fun _ _ _ => ⟨rfl, rfl⟩⟩
  · intro rf pv h
    unfold calculateSharpe
    rw [if_pos h]
  · intro rf pv h
    unfold calculateSharpe
    dsimp only
    split_ifs with h1 h2
    · rfl
    · rfl
    · exfalso
      apply h2
      have hc : ((sampleVar (pctChange pv) : ℚ) : ℝ) = 0 := by
        rw [h]; norm_num
      rw [hc]
      exact Real.sqrt_zero
  · intro ts h
    rw [h]
    simp [winRate]

unseal Rat.add Rat.mul Rat.sub Rat.inv Rat.ofScientific in
/-- C9 witness: the degenerate cases at concrete inputs: a one-point curve,
a flat three-point curve (zero-variance returns), the empty curve, and the
empty ledger. -/
theorem degeneracies_resolve_to_zero_witness :
    calculateSharpe (3/100) [5] = 0 ∧
    calculateSharpe (3/100) [7, 7, 7] = 0 ∧
    calculateMaxDrawdown [] = 0 ∧
    winRate (calculateWinLossTrades []).1 (calculateWinLossTrades []).2 = 0 :=
  ⟨degeneracies_resolve_to_zero.1 (3/100) [5] (by norm_num),
   degeneracies_resolve_to_zero.2.1 (3/100) [7, 7, 7] (by decide),
   degeneracies_resolve_to_zero.2.2.1,
   degeneracies_resolve_to_zero.2.2.2.1 [] rfl⟩

/-- C10: the `position_sizing` strategy maps the level to the same signal as
`technical_summary` row by row, produces the same signal column (the
execution core reads only close and signal, never the size column), and
therefore the whole backtest pipeline returns identical results for the two
strategy names on every merged series, capital and config. -/
theorem position_sizing_equals_technical_summary :
    (∀ lv : Option String, positionSizingRowSignal lv = summaryRowSignal lv) ∧
    (∀ df : List MergedRow,
      generatePositionSizingSignals df = generateSummarySignals df) ∧
    (∀ (df : List MergedRow) (init : ℚ) (cfg : BacktestConfig) (tk : String),
      runSignalBacktest "position_sizing" df init cfg tk =
        runSignalBacktest "technical_summary" df init cfg tk) := by
  have hrow : ∀ lv : Option String, positionSizingRowSignal lv = summaryRowSignal lv := by
    intro lv
    cases lv with
    | none => rfl
    | some s =>
      unfold positionSizingRowSignal summaryRowSignal
      dsimp only
      split_ifs <;> simp_all
  have hcol : ∀ df : List MergedRow,
      generatePositionSizingSignals df = generateSummarySignals df := by
    intro df
    unfold generatePositionSizingSignals generateSummarySignals
    exact List.map_congr_left fun r _ => by rw [hrow]
  refine ⟨hrow, hcol, ?_⟩
  intro df init cfg tk
  unfold runSignalBacktest
  cases validateData (df.map candleOf) tk with
  | error e => rfl
  | ok u =>
    have e1 : generateSignals "position_sizing" df =
        .ok (generatePositionSizingSignals df) := by
      simp [generateSignals]
    have e2 : generateSignals "technical_summary" df =
        .ok (generateSummarySignals df) := rfl
    rw [e1, e2, hcol df]

unseal Rat.add Rat.mul Rat.sub Rat.inv Rat.ofScientific in
/-- C8 witness: the two-bar round trip BUY at 100 / SELL at 110 with a 95%
position ratio executes identically at rates 0 and 1%, and the 1%-rate
return does not exceed the 0-rate return. -/
theorem cost_rate_monotone_witness :
    (executeBacktest ⟨1/100, 9/10, 1/2, 0⟩
        [⟨100, "BUY"⟩, ⟨110, "SELL"⟩] 10000).total_return_pct ≤
      (executeBacktest ⟨0, 9/10, 1/2, 0⟩
        [⟨100, "BUY"⟩, ⟨110, "SELL"⟩] 10000).total_return_pct :=
  cost_rate_monotone (9/10) (1/2) 0 [⟨100, "BUY"⟩, ⟨110, "SELL"⟩] 10000 0 (1/100)
    (by norm_num) (by norm_num) (by decide) (by decide) (by decide)

end ChartBeacon
